import Mathlib

/-!
Shallow embedding of the dispatch core of `c0re100/gotdlib` (package
`client`, files `client.go` and `extra.go`) and proofs about it.

Strings from the Go side are modelled as `List Char` (Go strings are byte
sequences; every literal involved here is ASCII, so character-wise
modelling is faithful).  Durations (`time.Duration`) are modelled as `Nat`
nanoseconds.  Channels and goroutines are modelled by making every
externally-supplied event (arrival of a response on a catcher channel,
outcome of a decoder) an explicit parameter of the function that consumes
it, and by recording the deliveries a routine performs as explicit output
data instead of channel sends.
-/

set_option autoImplicit false

namespace Gotd

/-- Value of `time.Second` in nanoseconds, the unit of `time.Duration`. -/
def second : Nat := 1000000000

/-! ## extra.go: the two embedded versions of the command helpers

The repository's `extra.go` contains two versions of `IsCommand` and
`CheckCommand` (the file appears twice with different bodies).  Both are
embedded here, suffixed `V1` (first copy, lines 17–43) and `V2` (second
copy, lines 71–101). -/

/-- Entities parameter of `CheckCommand` (`[]*TextEntity`); both versions ignore it. -/
structure TextEntity where
  unused : Unit

/-- Model of Go `strings.Index(s, sep)` for a single-character `sep`: index of the
first occurrence of `c` in `s`, `-1` if absent. -/
def goIndexChar : List Char → Char → Int
  | [], _ => -1
  | x :: rest, c =>
    if x = c then 0
    else
      let r := goIndexChar rest c
      if r = -1 then -1 else r + 1

/-- First version of `IsCommand` (`extra.go` copy 1):
`if text != "" { if text[0] == '/' { return true } }; return false`. -/
def isCommandV1 (text : List Char) : Bool :=
  match text with
  | [] => false
  | c :: _ => if c = '/' then true else false

/-- Second version of `IsCommand` (`extra.go` copy 2):
`if i := strings.Index(text, "/"); i == 0 { return true }; return false`. -/
def isCommandV2 (text : List Char) : Bool :=
  if goIndexChar text '/' = 0 then true else false

/-- First version of `CheckCommand` (`extra.go` copy 1): the `@`-prefix is
returned if `@` occurs, else the space-prefix if a space occurs, else the
whole text; non-commands yield `""`. -/
def checkCommandV1 (text : List Char) (entities : List TextEntity) : List Char :=
  if isCommandV1 text then
    if goIndexChar text '@' ≠ -1 then text.take (goIndexChar text '@').toNat
    else if goIndexChar text ' ' ≠ -1 then text.take (goIndexChar text ' ').toNat
    else text
  else []

/-- Second version of `CheckCommand` (`extra.go` copy 2): `cmd` starts
empty, is set to the space-prefix if a space occurs, overwritten by the
`@`-prefix if `@` occurs; empty `cmd` falls back to the whole text. -/
def checkCommandV2 (text : List Char) (entities : List TextEntity) : List Char :=
  if isCommandV2 text then
    let cmd0 : List Char := []
    let cmd1 :=
      if goIndexChar text ' ' ≠ -1 then text.take (goIndexChar text ' ').toNat else cmd0
    let cmd2 :=
      if goIndexChar text '@' ≠ -1 then text.take (goIndexChar text '@').toNat else cmd1
    if cmd2 = [] then text else cmd2
  else []

/-! ## client.go: data model

A raw incoming message (`Response` in `client.go`): a type tag (Go field
`Type`, written `Type_` because `Type` is not a legal Lean field name), a
correlation id (`Extra`, empty on unsolicited updates) and a raw payload
(`Data`). -/

structure Response where
  Type_ : String
  Extra : String
  Data : List Char
deriving Repr, DecidableEq

/-- A decoded typed object, as far as the dispatch core inspects it: its
`GetType()` discriminator tag, and — when the tag is
`updateMessageSendSucceeded` — the `OldMessageId` field read by
`processResponse`. -/
structure TypeObj where
  tag : String
  oldMessageId : Int
deriving Repr, DecidableEq

/-- Tag returned by `(&UpdateMessageSendSucceeded\x7b\x7d).GetType()`. -/
def updateMessageSendSucceededTag : String := "updateMessageSendSucceeded"

/-- A `Listener`: active flag, whether `Updates` is a non-nil channel,
whether `RawUpdates` is a non-nil channel, and the `Filter` type's tag
(`none` models a nil `Filter`). -/
structure Listener where
  isActive : Bool
  hasUpdates : Bool
  hasRawUpdates : Bool
  filter : Option String
deriving Repr, DecidableEq

/-- The listener built by `Client.GetListener`: active, a fresh
`RawUpdates` channel, no `Updates` channel, no filter.  (`GetListener`
also appends it to the listener store; registration is modelled by
`listenerStoreAdd`.) -/
def GetListener : Listener :=
  { isActive := true, hasUpdates := false, hasRawUpdates := true, filter := none }

/-- The listener built by `Client.AddEventReceiver msgType capacity`:
active, a fresh `Updates` channel with the given filter, no `RawUpdates`
channel. -/
def AddEventReceiver (msgType : String) : Listener :=
  { isActive := true, hasUpdates := true, hasRawUpdates := false, filter := some msgType }

/-- Operation `listenerStore.Add`: appends the new listener to the store. -/
def listenerStoreAdd (store : List Listener) (l : Listener) : List Listener :=
  store ++ [l]

/-- Function `SetPendingUpdateType(update...)`: appends each given type (its tag) to
the process-wide `pendingUpdateType` slice, in order, without
deduplication. -/
def SetPendingUpdateType (pendingUpdateType : List String) (update : List String) :
    List String :=
  update.foldl (fun acc v => acc ++ [v]) pendingUpdateType

/-- One delivery performed by the listener loop of `processResponse`:
either a send on the listener's `Updates` channel (`delayed` records
whether it goes through the 5 ms-delayed goroutine used for
`updateMessageSendSucceeded`) or a send on its `RawUpdates` channel. -/
inductive ListenerDelivery where
  | updates (delayed : Bool) (typ : TypeObj)
  | raw (typ : TypeObj)
deriving Repr, DecidableEq

/-- The listener loop body of `processResponse` for one listener: an
active listener with a non-nil `Updates` channel whose filter tag equals
the decoded tag gets the object on `Updates` (delayed iff the tag is
`updateMessageSendSucceeded`); otherwise an active listener with a
non-nil `RawUpdates` channel gets it there; otherwise nothing is
delivered. -/
def deliverToListener (typ : TypeObj) (l : Listener) : Option ListenerDelivery :=
  if l.isActive && l.hasUpdates && (l.filter == some typ.tag) then
    some (.updates (typ.tag == updateMessageSendSucceededTag) typ)
  else if l.isActive && l.hasRawUpdates then
    some (.raw typ)
  else
    none

/-- Everything `processResponse` does with one incoming message, recorded
as data: the delivery to the catcher channel of a matching correlation
entry, the delivery to a matching success-message catcher, the sends onto
the `pendingResp` channel, the per-listener deliveries (aligned with the
listener list), and whether the inactive-listener GC runs. -/
structure DispatchEffects where
  catcherDelivery : Option Response
  successDelivery : Option Response
  pendingEnqueues : List Response
  listenerDeliveries : List (Option ListenerDelivery)
  gcRun : Bool
deriving Repr, DecidableEq

/-- Body of `Client.processResponse`, with the client's mutable state passed
explicitly: `disablePatch` is the `DisablePatch` flag, `decode` is
`UnmarshalType` (the external typed decoder), `catchers` the keys of
`catchersStore`, `successKeys` the keys of `successMsgStore`,
`pendingTypes` the tags of the process-wide `pendingUpdateType` slice and
`listeners` the current `listenerStore.Listeners()` snapshot. -/
def processResponse (disablePatch : Bool) (decode : List Char → Option TypeObj)
    (catchers : List String) (successKeys : List Int)
    (pendingTypes : List String) (listeners : List Listener)
    (response : Response) : DispatchEffects :=
  let catcherDelivery :=
    if response.Extra ≠ "" ∧ response.Extra ∈ catchers then some response else none
  match decode response.Data with
  | none =>
    { catcherDelivery := catcherDelivery, successDelivery := none,
      pendingEnqueues := [], listenerDeliveries := [], gcRun := false }
  | some typ =>
    let successDelivery :=
      if !disablePatch && (typ.tag == updateMessageSendSucceededTag)
          && successKeys.contains typ.oldMessageId then
        some response
      else none
    let pendingEnqueues :=
      if listeners.length = 0 then
        (pendingTypes.filter (fun p => typ.tag == p)).map (fun _ => response)
      else []
    { catcherDelivery := catcherDelivery, successDelivery := successDelivery,
      pendingEnqueues := pendingEnqueues,
      listenerDeliveries := listeners.map (deliverToListener typ),
      gcRun := listeners.any (fun l => !l.isActive) }

/-- What `Client.processPendingResponse` does on startup. -/
inductive PendingWorkerStart where
  | immediateReturn
  | waitForListenerThenDrain
deriving Repr, DecidableEq

/-- The startup branch of `Client.processPendingResponse`: with an empty
`pendingUpdateType` list it returns at once; otherwise it polls until the
listener store is non-empty and then drains `pendingResp`. -/
def processPendingResponseStart (pendingTypes : List String) : PendingWorkerStart :=
  if pendingTypes.length = 0 then .immediateReturn else .waitForListenerThenDrain

/-- The drain loop of `processPendingResponse`: each buffered response, in
arrival (FIFO channel) order, is fed back through `processResponse`. -/
def drainPending (disablePatch : Bool) (decode : List Char → Option TypeObj)
    (catchers : List String) (successKeys : List Int)
    (pendingTypes : List String) (listeners : List Listener)
    (pending : List Response) : List DispatchEffects :=
  pending.map
    (processResponse disablePatch decode catchers successKeys pendingTypes listeners)

/-! ## client.go: the Send gateway -/

/-- An outbound request, as far as `Send` inspects it: its type tag (Go
field `Type`) and the correlation id `Extra` that `Send` assigns. -/
structure Request where
  Type_ : String
  Extra : String
deriving Repr, DecidableEq

/-- The message object produced by `UnmarshalMessage`, as far as `Send`
reads it: `Id` and `Content.MessageContentType()`. -/
structure Message where
  Id : Int
  contentType : String
deriving Repr, DecidableEq

/-- The event produced by `UnmarshalUpdateMessageSendSucceeded`, as far
as `Send` reads it: `Message.Id`, the final message id. -/
structure SendSucceededEvent where
  messageId : Int
deriving Repr, DecidableEq

/-- The two error values `Send` can return: the
`errors.New("response catching timeout")` value produced when the context
deadline fires, and the error propagated from a failing
`UnmarshalMessage`. -/
inductive SendError where
  | responseTimeout
  | messageDecodeError
deriving Repr, DecidableEq

/-- Test whether `pre` is a leading segment of `s` (Go
`bytes.HasPrefix`-style check used by the scan of `bytes.Replace`). -/
def leadsWith : List Char → List Char → Bool
  | [], _ => true
  | _ :: _, [] => false
  | a :: as, b :: bs => a == b && leadsWith as bs

/-- Scan of Go `bytes.Replace(s, old, new, 1)` for non-empty `old`: walk
`s`, and at the first position where `old` leads, splice in `new` and
keep the remainder unchanged; if `old` never occurs, return `s`
unchanged. -/
def replaceOnceAux (old new : List Char) : List Char → List Char
  | [] => []
  | c :: rest =>
    if leadsWith old (c :: rest) then new ++ (c :: rest).drop old.length
    else c :: replaceOnceAux old new rest

/-- Model of Go `bytes.Replace(s, old, new, 1)`: replace the first
occurrence of `old` in `s` by `new` (with Go's convention that an empty
`old` inserts `new` at the start). -/
def goReplaceOnce (s old new : List Char) : List Char :=
  if old = [] then new ++ s else replaceOnceAux old new s

/-- Decidable occurrence test: `old` occurs as a contiguous segment of
`s` (for non-empty `old` this is exactly when `bytes.Replace` changes
`s`). -/
def containsSeq (s old : List Char) : Bool :=
  match s with
  | [] => old.isEmpty
  | _ :: rest => leadsWith old s || containsSeq rest old

/-- The literal `"@type":"messageSendingStatePending"` replaced by the
patch (including the surrounding double quotes). -/
def pendingStateMarker : List Char :=
  "\"@type\":\"messageSendingStatePending\"".toList

/-- The literal `"@type":"updateMessageSendSucceeded"` substituted in by
the patch. -/
def succeededMarker : List Char :=
  "\"@type\":\"updateMessageSendSucceeded\"".toList

/-- The literal `"id":` followed by `strconv.FormatInt(id, 10)`. -/
def idLiteral (id : Int) : List Char :=
  ("\"id\":" ++ toString id).toList

/-- The client configuration consumed by `Send`: the catch timeout in
nanoseconds and the `DisablePatch` flag. -/
structure ClientCfg where
  catchTimeout : Nat
  DisablePatch : Bool
deriving Repr, DecidableEq

/-- The options of `NewClient` that touch the configuration modelled
here: `WithCatchTimeout(t)` and `WithoutSendMessagePatch()`.  (The
remaining options, `WithExtraGenerator` and `WithProxy`, do not affect
`catchTimeout` or `DisablePatch`.) -/
inductive ClientOption where
  | withCatchTimeout (t : Nat)
  | withoutSendMessagePatch
deriving Repr, DecidableEq

/-- Application of one option closure to the client under construction. -/
def applyOption (c : ClientCfg) : ClientOption → ClientCfg
  | .withCatchTimeout t => { c with catchTimeout := t }
  | .withoutSendMessagePatch => { c with DisablePatch := true }

/-- Configuration part of `NewClient`: `catchTimeout` starts at
`60 * time.Second` (and `DisablePatch` at Go's zero value `false`), then
the options run in order. -/
def newClientCfg (options : List ClientOption) : ClientCfg :=
  options.foldl applyOption { catchTimeout := 60 * second, DisablePatch := false }

/-- The environment one `Send` call interacts with: whether (and when, in
nanoseconds after the wait starts) the dispatcher delivers a response on
this call's catcher channel; the `UnmarshalMessage` decoder; whether and
when a response is delivered on the success catcher registered by the
patch sub-flow; and the `UnmarshalUpdateMessageSendSucceeded` decoder. -/
structure SendEnv where
  primaryArrival : Option (Nat × Response)
  unmarshalMessage : List Char → Option Message
  successArrival : Option (Nat × Response)
  unmarshalSucceeded : List Char → Option SendSucceededEvent

/-- Body of `Client.Send` (client.go lines 186–238).  The first `select`
is modelled by comparing the arrival time of the catcher delivery with
`catchTimeout`; the inner `select` compares the success-catcher arrival
with `time.After(1 * time.Second)`.  Channel/`select` deliveries at or
after the deadline are taken by the timeout branch. -/
def send (client : ClientCfg) (env : SendEnv) (req : Request) :
    Except SendError Response :=
  match env.primaryArrival with
  | none => .error .responseTimeout
  | some (t, response) =>
    if t < client.catchTimeout then
      if !client.DisablePatch && (response.Type_ != "error")
          && (req.Type_ == "sendMessage") then
        match env.unmarshalMessage response.Data with
        | none => .error .messageDecodeError
        | some m =>
          if (m.contentType == "messageText") || (m.contentType == "messageDice") then
            match env.successArrival with
            | none => .ok response
            | some (t2, modResponse) =>
              if t2 < second then
                match env.unmarshalSucceeded modResponse.Data with
                | none => .ok response
                | some m2 =>
                  .ok { response with
                        Data := goReplaceOnce
                          (goReplaceOnce response.Data pendingStateMarker succeededMarker)
                          (idLiteral m.Id) (idLiteral m2.messageId) }
              else .ok response
          else .ok response
      else .ok response
    else .error .responseTimeout

/-- The gate of the patch sub-flow (client.go lines 205–213): `Send`
registers a secondary correlation entry and waits for the succeeded event
exactly when a response arrives in time, patching is enabled, the
response is not an error, the request is a `sendMessage`, the response
decodes as a message, and the content type is `messageText` or
`messageDice`. -/
def patchSubflowRuns (client : ClientCfg) (env : SendEnv) (req : Request) : Bool :=
  match env.primaryArrival with
  | none => false
  | some (t, response) =>
    decide (t < client.catchTimeout)
      && !client.DisablePatch && (response.Type_ != "error")
      && (req.Type_ == "sendMessage")
      && (match env.unmarshalMessage response.Data with
          | none => false
          | some m =>
            (m.contentType == "messageText") || (m.contentType == "messageDice"))

/-! ## Concrete instances used to evaluate the theorems on explicit inputs -/

/-- A sample update tag. -/
def newMessageTag : String := "updateNewMessage"

/-- Another sample update tag, distinct from `newMessageTag`. -/
def optionTag : String := "updateOption"

/-- A sample decoded object with tag `newMessageTag`. -/
def wTypObj : TypeObj := { tag := newMessageTag, oldMessageId := 0 }

/-- A decoder that decodes every payload to `wTypObj`. -/
def wDecode : List Char → Option TypeObj := fun _ => some wTypObj

/-- A decoder that fails on every payload. -/
def wDecodeFail : List Char → Option TypeObj := fun _ => none

/-- Payload of the pending-state send response of the worked example:
contains the pending marker and the temporary id 100. -/
def wData : List Char :=
  "\"@type\":\"messageSendingStatePending\",\"id\":100".toList

/-- The payload of the worked example after the patch: succeeded marker
and final id 500. -/
def wDataPatched : List Char :=
  "\"@type\":\"updateMessageSendSucceeded\",\"id\":500".toList

/-- The synchronous send response of the worked example. -/
def wResponse : Response := { Type_ := "message", Extra := "req-1", Data := wData }

/-- An unsolicited update response (no correlation id). -/
def wUpdate : Response := { Type_ := "updateNewMessage", Extra := "", Data := [] }

/-- A send-message request. -/
def wRequest : Request := { Type_ := "sendMessage", Extra := "req-1" }

/-- The default client configuration (as built by `NewClient` with no
options). -/
def wCfg : ClientCfg := { catchTimeout := 60 * second, DisablePatch := false }

/-- Environment of the worked patch example: the response arrives after
5 ns, decodes as a text message with id 100, and the succeeded event
arrives after 7 ns reporting final id 500. -/
def wEnvOk : SendEnv :=
  { primaryArrival := some (5, wResponse),
    unmarshalMessage := fun _ => some { Id := 100, contentType := "messageText" },
    successArrival :=
      some (7, { Type_ := "updateMessageSendSucceeded", Extra := "", Data := [] }),
    unmarshalSucceeded := fun _ => some { messageId := 500 } }

/-- Environment in which no matching response is ever delivered. -/
def wEnvNone : SendEnv :=
  { primaryArrival := none,
    unmarshalMessage := fun _ => none,
    successArrival := none,
    unmarshalSucceeded := fun _ => none }

/-- Environment in which the succeeded event never arrives. -/
def wEnvNoSucc : SendEnv :=
  { primaryArrival := some (5, wResponse),
    unmarshalMessage := fun _ => some { Id := 100, contentType := "messageText" },
    successArrival := none,
    unmarshalSucceeded := fun _ => none }

/-- Environment in which the response arrives promptly but fails to
decode as a message (used against C3). -/
def wEnvDecodeFail : SendEnv :=
  { primaryArrival := some (0, wResponse),
    unmarshalMessage := fun _ => none,
    successArrival := none,
    unmarshalSucceeded := fun _ => none }

/-- A second pending-state response, distinct from `wResponse`. -/
def wResponse6 : Response := { Type_ := "message", Extra := "req-6", Data := wData }

/-- A second send-message request. -/
def wRequest6 : Request := { Type_ := "sendMessage", Extra := "req-6" }

/-- A second decode-failure environment (used against C6). -/
def wEnvDecodeFail6 : SendEnv :=
  { primaryArrival := some (1, wResponse6),
    unmarshalMessage := fun _ => none,
    successArrival := none,
    unmarshalSucceeded := fun _ => none }

/-- The patched response of the worked example. -/
def wPatched : Response := { Type_ := "message", Extra := "req-1", Data := wDataPatched }

/-- The default configuration with the send-message patch disabled. -/
def wCfgNoPatch : ClientCfg := { catchTimeout := 60 * second, DisablePatch := true }

/-! ### Lemmas about `goIndexChar` -/

theorem goIndexChar_nonneg_of_ne_neg_one {s : List Char} {c : Char}
    (h : goIndexChar s c ≠ -1) : 0 ≤ goIndexChar s c := by
  induction s with
  | nil => simp [goIndexChar] at h
  | cons x rest ih =>
    simp only [goIndexChar] at h ⊢
    by_cases hx : x = c
    · simp [hx]
    · simp only [hx, if_false] at h ⊢
      by_cases hr : goIndexChar rest c = -1
      · simp [hr] at h
      · simp only [hr, if_false] at h ⊢
        have := ih hr
        omega

theorem goIndexChar_cons_ne_zero {x : Char} {rest : List Char} {c : Char}
    (hx : x ≠ c) : goIndexChar (x :: rest) c ≠ 0 := by
  simp only [goIndexChar, hx, if_false]
  by_cases hr : goIndexChar rest c = -1
  · simp [hr]
  · simp only [hr, if_false]
    have := goIndexChar_nonneg_of_ne_neg_one hr
    omega

theorem goIndexChar_cons_pos {x : Char} {rest : List Char} {c : Char}
    (hx : x ≠ c) (h : goIndexChar (x :: rest) c ≠ -1) :
    1 ≤ goIndexChar (x :: rest) c := by
  have h0 := @goIndexChar_cons_ne_zero x rest c hx
  have hn := goIndexChar_nonneg_of_ne_neg_one h
  omega

theorem isCommandV1_eq_isCommandV2 (text : List Char) :
    isCommandV1 text = isCommandV2 text := by
  cases text with
  | nil => simp [isCommandV1, isCommandV2, goIndexChar]
  | cons c rest =>
    by_cases hc : c = '/'
    · simp [isCommandV1, isCommandV2, goIndexChar, hc]
    · have := @goIndexChar_cons_ne_zero c rest '/' hc
      simp [isCommandV1, isCommandV2, hc, this]

theorem take_toNat_ne_nil {x : Char} {rest : List Char} {i : Int}
    (hi : 1 ≤ i) : (x :: rest).take i.toNat ≠ [] := by
  have : 1 ≤ i.toNat := by omega
  cases h : i.toNat with
  | zero => omega
  | succ n => simp [List.take]

theorem checkCommandV1_eq_checkCommandV2 (text : List Char) (entities : List TextEntity) :
    checkCommandV1 text entities = checkCommandV2 text entities := by
  rw [checkCommandV1, checkCommandV2, isCommandV1_eq_isCommandV2]
  by_cases hcmd : isCommandV2 text
  · simp only [hcmd, if_true]
    -- a command is nonempty and starts with '/'
    obtain ⟨x, rest, rfl, hx⟩ : ∃ x rest, text = x :: rest ∧ x = '/' := by
      cases text with
      | nil => simp [isCommandV2, goIndexChar] at hcmd
      | cons x rest =>
        refine ⟨x, rest, rfl, ?_⟩
        by_contra hx
        exact @goIndexChar_cons_ne_zero x rest '/' hx
          (by simpa [isCommandV2] using hcmd)
    have hxat : x ≠ '@' := by rw [hx]; decide
    have hxsp : x ≠ ' ' := by rw [hx]; decide
    by_cases hat : goIndexChar (x :: rest) '@' = -1
    · by_cases hsp : goIndexChar (x :: rest) ' ' = -1
      · simp [hat, hsp]
      · have h1 : 1 ≤ goIndexChar (x :: rest) ' ' := goIndexChar_cons_pos hxsp hsp
        have hne := @take_toNat_ne_nil x rest _ h1
        simp [hat, hsp, hne]
    · have h1 : 1 ≤ goIndexChar (x :: rest) '@' := goIndexChar_cons_pos hxat hat
      have hne := @take_toNat_ne_nil x rest _ h1
      simp [hat, hne]
  · simp [hcmd]

/-! ### Lemmas about `goReplaceOnce` -/

theorem leadsWith_iff_append {old s : List Char} :
    leadsWith old s = true ↔ ∃ q, s = old ++ q := by
  induction old generalizing s with
  | nil => simp [leadsWith]
  | cons a as ih =>
    cases s with
    | nil => simp [leadsWith]
    | cons b bs =>
      simp only [leadsWith, Bool.and_eq_true, beq_iff_eq]
      constructor
      · rintro ⟨rfl, h⟩
        obtain ⟨q, rfl⟩ := ih.mp h
        exact ⟨q, rfl⟩
      · rintro ⟨q, hq⟩
        injection hq with h1 h2
        exact ⟨h1.symm, ih.mpr ⟨q, h2⟩⟩

theorem containsSeq_iff {s old : List Char} (hold : old ≠ []) :
    containsSeq s old = true ↔ ∃ p q, s = p ++ old ++ q := by
  induction s with
  | nil =>
    simp only [containsSeq, List.isEmpty_iff]
    constructor
    · intro h; exact absurd h hold
    · rintro ⟨p, q, hpq⟩
      exact absurd hpq.symm (by simp [hold])
  | cons c rest ih =>
    simp only [containsSeq, Bool.or_eq_true]
    constructor
    · rintro (h | h)
      · obtain ⟨q, hq⟩ := leadsWith_iff_append.mp h
        exact ⟨[], q, by simpa using hq⟩
      · obtain ⟨p, q, rfl⟩ := ih.mp h
        exact ⟨c :: p, q, rfl⟩
    · rintro ⟨p, q, hpq⟩
      cases p with
      | nil =>
        left
        exact leadsWith_iff_append.mpr ⟨q, by simpa using hpq⟩
      | cons p0 ps =>
        right
        injection hpq with h1 h2
        exact ih.mpr ⟨ps, q, h2⟩

theorem replaceOnceAux_of_not_contains {old new s : List Char}
    (h : containsSeq s old = false) : replaceOnceAux old new s = s := by
  induction s with
  | nil => rfl
  | cons c rest ih =>
    simp only [containsSeq, Bool.or_eq_false_iff] at h
    simp [replaceOnceAux, h.1, ih h.2]

theorem replaceOnceAux_first_occurrence {old new s : List Char} (hold : old ≠ [])
    (h : containsSeq s old = true) :
    ∃ p q, s = p ++ old ++ q ∧ replaceOnceAux old new s = p ++ new ++ q ∧
      ∀ p' q', s = p' ++ old ++ q' → p.length ≤ p'.length := by
  induction s with
  | nil =>
    simp only [containsSeq, List.isEmpty_iff] at h
    exact absurd h hold
  | cons c rest ih =>
    by_cases hl : leadsWith old (c :: rest) = true
    · obtain ⟨q, hq⟩ := leadsWith_iff_append.mp hl
      refine ⟨[], q, by simpa using hq, ?_, fun p' q' h' => Nat.zero_le _⟩
      simp only [replaceOnceAux, hl, if_true, List.nil_append]
      rw [hq, List.drop_append_of_le_length (Nat.le_refl _)]
      simp
    · have hrest : containsSeq rest old = true := by
        simp only [containsSeq, Bool.or_eq_true] at h
        rcases h with h | h
        · exact absurd h hl
        · exact h
      obtain ⟨p, q, hpq, hrepl, hmin⟩ := ih hrest
      refine ⟨c :: p, q, by simp [hpq], ?_, ?_⟩
      · simp only [replaceOnceAux, hl, if_false]
        rw [hrepl]
        simp
      · rintro p' q' h'
        cases p' with
        | nil =>
          exfalso
          apply hl
          exact leadsWith_iff_append.mpr ⟨q', by simpa using h'⟩
        | cons c' ps =>
          injection h' with h1 h2
          have := hmin ps q' h2
          simp only [List.length_cons]
          omega

theorem goReplaceOnce_not_contains {s old new : List Char} (hold : old ≠ [])
    (h : containsSeq s old = false) : goReplaceOnce s old new = s := by
  rw [goReplaceOnce, if_neg hold]
  exact replaceOnceAux_of_not_contains h

theorem goReplaceOnce_first_occurrence {s old new : List Char} (hold : old ≠ [])
    (h : containsSeq s old = true) :
    ∃ p q, s = p ++ old ++ q ∧ goReplaceOnce s old new = p ++ new ++ q ∧
      ∀ p' q', s = p' ++ old ++ q' → p.length ≤ p'.length := by
  rw [goReplaceOnce, if_neg hold]
  exact replaceOnceAux_first_occurrence hold h

/-! ### Auxiliary lemmas about the client configuration -/

theorem foldl_applyOption_catchTimeout (options : List ClientOption) (c : ClientCfg)
    (h : ∀ d, ClientOption.withCatchTimeout d ∉ options) :
    (options.foldl applyOption c).catchTimeout = c.catchTimeout := by
  induction options generalizing c with
  | nil => rfl
  | cons o os ih =>
    cases o with
    | withCatchTimeout d => exact absurd (List.mem_cons_self _ _) (h d)
    | withoutSendMessagePatch =>
      simp only [List.foldl_cons]
      rw [ih]
      · rfl
      · intro d hd
        exact h d (List.mem_cons_of_mem _ hd)

/-! ### Case analysis of `send` -/

theorem pair_some_inj {t t' : Nat} {r r' : Response}
    (h : (some (t, r) : Option (Nat × Response)) = some (t', r')) :
    t' = t ∧ r' = r := by
  injection h with h'
  injection h' with ha hb
  exact ⟨ha.symm, hb.symm⟩

theorem send_arrival_result (cfg : ClientCfg) (env : SendEnv) (req : Request)
    (t : Nat) (r : Response)
    (harr : env.primaryArrival = some (t, r)) (ht : t < cfg.catchTimeout) :
    send cfg env req = .error .messageDecodeError ∨ ∃ r', send cfg env req = .ok r' := by
  simp only [send, harr]
  rw [if_pos ht]
  repeat' split
  all_goals first
  | exact Or.inl rfl
  | exact Or.inr ⟨_, rfl⟩

theorem send_timeout_iff (cfg : ClientCfg) (env : SendEnv) (req : Request) :
    send cfg env req = .error .responseTimeout ↔
      ∀ t r, env.primaryArrival = some (t, r) → cfg.catchTimeout ≤ t := by
  rcases harr : env.primaryArrival with _ | ⟨t, r⟩
  · simp [send, harr]
  · by_cases ht : t < cfg.catchTimeout
    · have hne : send cfg env req ≠ .error .responseTimeout := by
        rcases send_arrival_result cfg env req t r harr ht with h | ⟨r', h⟩ <;> simp [h]
      have hfa : ¬ ∀ t' r',
          (some (t, r) : Option (Nat × Response)) = some (t', r') →
          cfg.catchTimeout ≤ t' := by
        intro hfa
        exact absurd (hfa t r rfl) (Nat.not_le.mpr ht)
      exact iff_of_false hne hfa
    · have heq : send cfg env req = .error .responseTimeout := by
        simp only [send, harr]
        rw [if_neg ht]
      refine iff_of_true heq ?_
      intro t' r' h'
      obtain ⟨rfl, rfl⟩ := pair_some_inj h'
      exact Nat.le_of_not_lt ht

theorem send_decode_error_iff (cfg : ClientCfg) (env : SendEnv) (req : Request) :
    send cfg env req = .error .messageDecodeError ↔
      ∃ t r, env.primaryArrival = some (t, r) ∧ t < cfg.catchTimeout ∧
        cfg.DisablePatch = false ∧ r.Type_ ≠ "error" ∧ req.Type_ = "sendMessage" ∧
        env.unmarshalMessage r.Data = none := by
  rcases harr : env.primaryArrival with _ | ⟨t, r⟩
  · simp [send, harr]
  · by_cases ht : t < cfg.catchTimeout
    · simp only [send, harr]
      rw [if_pos ht]
      by_cases hgate :
          (!cfg.DisablePatch && (r.Type_ != "error") && (req.Type_ == "sendMessage")) = true
      · have hgate' : cfg.DisablePatch = false ∧ r.Type_ ≠ "error" ∧
            req.Type_ = "sendMessage" := by
          simp only [Bool.and_eq_true, Bool.not_eq_true', bne_iff_ne, beq_iff_eq] at hgate
          exact ⟨hgate.1.1, hgate.1.2, hgate.2⟩
        rw [if_pos hgate]
        rcases hm : env.unmarshalMessage r.Data with _ | m
        · refine iff_of_true rfl ?_
          exact ⟨t, r, rfl, ht, hgate'.1, hgate'.2.1, hgate'.2.2, hm⟩
        · have hrhs : ¬ ∃ t' r',
              (some (t, r) : Option (Nat × Response)) = some (t', r') ∧
              t' < cfg.catchTimeout ∧ cfg.DisablePatch = false ∧ r'.Type_ ≠ "error" ∧
              req.Type_ = "sendMessage" ∧ env.unmarshalMessage r'.Data = none := by
            rintro ⟨t', r', h', _, _, _, _, hm'⟩
            obtain ⟨rfl, rfl⟩ := pair_some_inj h'
            rw [hm] at hm'
            exact Option.noConfusion hm'
          refine iff_of_false ?_ hrhs
          repeat' split
          all_goals simp_all
      · rw [if_neg hgate]
        have hrhs : ¬ ∃ t' r',
            (some (t, r) : Option (Nat × Response)) = some (t', r') ∧
            t' < cfg.catchTimeout ∧ cfg.DisablePatch = false ∧ r'.Type_ ≠ "error" ∧
            req.Type_ = "sendMessage" ∧ env.unmarshalMessage r'.Data = none := by
          rintro ⟨t', r', h', _, hdp, herr, hreq, _⟩
          obtain ⟨rfl, rfl⟩ := pair_some_inj h'
          apply hgate
          simp [Bool.and_eq_true, Bool.not_eq_true', bne_iff_ne, beq_iff_eq, hdp, herr, hreq]
        exact iff_of_false (by simp) hrhs
    · simp only [send, harr]
      rw [if_neg ht]
      have hrhs : ¬ ∃ t' r',
          (some (t, r) : Option (Nat × Response)) = some (t', r') ∧
          t' < cfg.catchTimeout ∧ cfg.DisablePatch = false ∧ r'.Type_ ≠ "error" ∧
          req.Type_ = "sendMessage" ∧ env.unmarshalMessage r'.Data = none := by
        rintro ⟨t', r', h', ht', _⟩
        obtain ⟨rfl, rfl⟩ := pair_some_inj h'
        exact ht ht'
      exact iff_of_false (by simp) hrhs

theorem send_trichotomy (cfg : ClientCfg) (env : SendEnv) (req : Request) :
    send cfg env req = .error .responseTimeout ∨
    send cfg env req = .error .messageDecodeError ∨
    ∃ r, send cfg env req = .ok r := by
  rcases harr : env.primaryArrival with _ | ⟨t, r⟩
  · left
    simp [send, harr]
  · by_cases ht : t < cfg.catchTimeout
    · rcases send_arrival_result cfg env req t r harr ht with h | h
      · exact Or.inr (Or.inl h)
      · exact Or.inr (Or.inr h)
    · left
      simp only [send, harr]
      rw [if_neg ht]

/-! ## Claim theorems -/

/-- C9: the two embedded versions of the command-parsing helpers in
`extra.go` are extensionally equal: for every input string both versions
of `IsCommand` return the same boolean, and for every input string and
entity list both versions of `CheckCommand` return the same string. -/
theorem extra_command_versions_equivalent :
    (∀ text : List Char, isCommandV1 text = isCommandV2 text) ∧
    (∀ (text : List Char) (entities : List TextEntity),
      checkCommandV1 text entities = checkCommandV2 text entities) :=
  ⟨isCommandV1_eq_isCommandV2, checkCommandV1_eq_checkCommandV2⟩

/-- C8: if the configured pending-type list is empty when the
pending-response worker starts, `processPendingResponse` returns
immediately instead of waiting for a listener and draining. -/
theorem pending_worker_short_circuit (pendingTypes : List String)
    (h : pendingTypes = []) :
    processPendingResponseStart pendingTypes = .immediateReturn := by
  subst h
  rfl

/-- Witness for C8 at the empty list. -/
theorem pending_worker_short_circuit_witness :
    processPendingResponseStart [] = .immediateReturn :=
  pending_worker_short_circuit [] rfl

/-- C1: for every call to `Send` with catch timeout `T`: if no response
carrying the call's correlation id is delivered within `T`, `Send`
returns the response-catching-timeout error and no response; if a
matching response is delivered before `T` elapses, `Send` never returns
that error; and `NewClient` leaves the timeout at its default of 60
seconds when no `WithCatchTimeout` option is given. -/
theorem send_timeout_contract (cfg : ClientCfg) (env : SendEnv) (req : Request) :
    ((∀ t r, env.primaryArrival = some (t, r) → cfg.catchTimeout ≤ t) →
      send cfg env req = .error .responseTimeout) ∧
    (∀ t r, env.primaryArrival = some (t, r) → t < cfg.catchTimeout →
      send cfg env req ≠ .error .responseTimeout) ∧
    (∀ options : List ClientOption,
      (∀ d, ClientOption.withCatchTimeout d ∉ options) →
      (newClientCfg options).catchTimeout = 60 * second) := by
  refine ⟨fun h => (send_timeout_iff cfg env req).mpr h, ?_, ?_⟩
  · intro t r harr ht hcontra
    have := (send_timeout_iff cfg env req).mp hcontra t r harr
    omega
  · intro options h
    exact foldl_applyOption_catchTimeout options _ h

/-- Witness for C1: with no delivery `Send` times out; with a delivery at
5 ns it does not; the default configuration has a 60-second timeout. -/
theorem send_timeout_contract_witness :
    send wCfg wEnvNone wRequest = .error .responseTimeout ∧
    send wCfg wEnvOk wRequest ≠ .error .responseTimeout ∧
    (newClientCfg []).catchTimeout = 60 * second := by
  refine ⟨?_, ?_, ?_⟩
  · exact (send_timeout_contract wCfg wEnvNone wRequest).1 (fun t r h => nomatch h)
  · exact (send_timeout_contract wCfg wEnvOk wRequest).2.1 5 wResponse rfl (by decide)
  · exact (send_timeout_contract wCfg wEnvNone wRequest).2.2 [] (by simp)

/-- Counterexample to C3 as stated: the matching response is delivered at
time 0, well inside the 60-second bound, so the wait does not time out;
yet `Send` returns the `UnmarshalMessage` error (with no response)
because the decode inside the patch sub-flow failed. -/
theorem send_error_only_on_timeout_counterexample :
    send wCfg wEnvDecodeFail wRequest = .error .messageDecodeError ∧
    wEnvDecodeFail.primaryArrival = some (0, wResponse) ∧
    0 < wCfg.catchTimeout ∧
    SendError.messageDecodeError ≠ SendError.responseTimeout :=
  ⟨rfl, rfl, by decide, by decide⟩

/-- C3 (amended): `Send` returns a caller-visible error exactly when its
bounded response wait times out, or when — with patching enabled, a
non-error response and a sendMessage request — the response fails to
decode as a message; in every other outcome it returns a response with a
nil error. -/
theorem send_error_characterization (cfg : ClientCfg) (env : SendEnv) (req : Request) :
    (send cfg env req = .error .responseTimeout ↔
      ∀ t r, env.primaryArrival = some (t, r) → cfg.catchTimeout ≤ t) ∧
    (send cfg env req = .error .messageDecodeError ↔
      ∃ t r, env.primaryArrival = some (t, r) ∧ t < cfg.catchTimeout ∧
        cfg.DisablePatch = false ∧ r.Type_ ≠ "error" ∧ req.Type_ = "sendMessage" ∧
        env.unmarshalMessage r.Data = none) ∧
    (send cfg env req ≠ .error .responseTimeout →
      send cfg env req ≠ .error .messageDecodeError →
      ∃ r, send cfg env req = .ok r) := by
  refine ⟨send_timeout_iff cfg env req, send_decode_error_iff cfg env req, ?_⟩
  intro h1 h2
  rcases send_trichotomy cfg env req with h | h | h
  · exact absurd h h1
  · exact absurd h h2
  · exact h

/-- Witness for the amended C3: the decode-failure environment produces
the decode error, and the worked patch example ends in a nil-error
response. -/
theorem send_error_characterization_witness :
    send wCfg wEnvDecodeFail wRequest = .error .messageDecodeError ∧
    (∃ r, send wCfg wEnvOk wRequest = .ok r) := by
  constructor
  · exact (send_error_characterization wCfg wEnvDecodeFail wRequest).2.1.mpr
      ⟨0, wResponse, rfl, by decide, rfl, by decide, rfl, rfl⟩
  · refine (send_error_characterization wCfg wEnvOk wRequest).2.2 ?_ ?_ <;>
    · intro h
      rw [show send wCfg wEnvOk wRequest = .ok wPatched from rfl] at h
      exact Except.noConfusion h

/-- Counterexample to C6 as stated: patching is enabled, the response is
not an error, the request is a sendMessage, and the decoded content
condition fails (the response does not decode at all), so by the claim
the patch sub-flow must not run and `Send` must return the response
unmodified; the sub-flow indeed does not run, but `Send` returns a
decode error instead of the unmodified response. -/
theorem patch_gate_counterexample :
    patchSubflowRuns wCfg wEnvDecodeFail6 wRequest6 = false ∧
    wEnvDecodeFail6.primaryArrival = some (1, wResponse6) ∧
    1 < wCfg.catchTimeout ∧
    send wCfg wEnvDecodeFail6 wRequest6 = .error .messageDecodeError ∧
    send wCfg wEnvDecodeFail6 wRequest6 ≠ .ok wResponse6 := by
  refine ⟨rfl, rfl, by decide, rfl, ?_⟩
  intro h
  rw [show send wCfg wEnvDecodeFail6 wRequest6 = .error .messageDecodeError from rfl] at h
  exact Except.noConfusion h

/-- C6 (amended): given a response arriving in time, the patch sub-flow
runs exactly when patching is enabled, the response is not "error", the
request is a sendMessage, the response decodes as a message and its
content type is plain text or dice; in every other case `Send` returns
the response unmodified — except that when the first three conditions
hold and the decode fails, `Send` returns the decode error instead. -/
theorem patch_gate_characterization (cfg : ClientCfg) (env : SendEnv) (req : Request)
    (t : Nat) (response : Response)
    (harr : env.primaryArrival = some (t, response)) (ht : t < cfg.catchTimeout) :
    (patchSubflowRuns cfg env req = true ↔
      (cfg.DisablePatch = false ∧ response.Type_ ≠ "error" ∧ req.Type_ = "sendMessage" ∧
        ∃ m, env.unmarshalMessage response.Data = some m ∧
          (m.contentType = "messageText" ∨ m.contentType = "messageDice"))) ∧
    (patchSubflowRuns cfg env req = false →
      ¬(cfg.DisablePatch = false ∧ response.Type_ ≠ "error" ∧ req.Type_ = "sendMessage" ∧
          env.unmarshalMessage response.Data = none) →
      send cfg env req = .ok response) ∧
    (cfg.DisablePatch = false → response.Type_ ≠ "error" → req.Type_ = "sendMessage" →
      env.unmarshalMessage response.Data = none →
      send cfg env req = .error .messageDecodeError) := by
  refine ⟨?_, ?_, ?_⟩
  · rcases hm : env.unmarshalMessage response.Data with _ | m
    · simp [patchSubflowRuns, harr, ht, hm]
    · simp only [patchSubflowRuns, harr, ht, decide_True, Bool.true_and, hm,
        Bool.and_eq_true, Bool.not_eq_true', bne_iff_ne, beq_iff_eq, Bool.or_eq_true,
        Option.some_inj]
      constructor
      · intro h
        refine ⟨by tauto, by tauto, by tauto, m, rfl, by tauto⟩
      · intro h
        obtain ⟨hdp, herr, hreq, m', hm', hct⟩ := h
        subst hm'
        tauto
  · intro hfalse hnot
    simp only [send, harr]
    rw [if_pos ht]
    by_cases hgate :
        (!cfg.DisablePatch && (response.Type_ != "error") && (req.Type_ == "sendMessage")) = true
    · have hgate' : cfg.DisablePatch = false ∧ response.Type_ ≠ "error" ∧
          req.Type_ = "sendMessage" := by
        simp only [Bool.and_eq_true, Bool.not_eq_true', bne_iff_ne, beq_iff_eq] at hgate
        exact ⟨hgate.1.1, hgate.1.2, hgate.2⟩
      rw [if_pos hgate]
      rcases hm : env.unmarshalMessage response.Data with _ | m
      · exact absurd ⟨hgate'.1, hgate'.2.1, hgate'.2.2, hm⟩ hnot
      · have hbt : decide (t < cfg.catchTimeout) = true := decide_eq_true ht
        have hb0 : (!cfg.DisablePatch) = true := by rw [hgate'.1]; rfl
        have hb1 : (response.Type_ != "error") = true := bne_iff_ne.mpr hgate'.2.1
        have hb2 : (req.Type_ == "sendMessage") = true := beq_iff_eq.mpr hgate'.2.2
        have hct : ((m.contentType == "messageText")
            || (m.contentType == "messageDice")) = false := by
          simp only [patchSubflowRuns, harr, hm, hbt, hb0, hb1, hb2,
            Bool.true_and] at hfalse
          exact hfalse
        simp [hct]
    · rw [if_neg hgate]
  · intro hdp herr hreq hm
    simp only [send, harr]
    rw [if_pos ht]
    rw [if_pos (by simp [Bool.and_eq_true, Bool.not_eq_true', bne_iff_ne, beq_iff_eq,
      hdp, herr, hreq])]
    simp [hm]

/-- Witness for the amended C6: with the patch disabled the sub-flow does
not run and the response comes back unmodified. -/
theorem patch_gate_characterization_witness :
    send wCfgNoPatch wEnvOk wRequest = .ok wResponse := by
  refine (patch_gate_characterization wCfgNoPatch wEnvOk wRequest 5 wResponse rfl
    (by decide)).2.1 rfl ?_
  intro h
  exact Bool.noConfusion h.1

/-- C2: when the patch applies (patching enabled, non-error response to a
sendMessage that decodes as a text or dice message) and the succeeded
event arrives within one second and decodes, `Send` returns the original
response with exactly the two `bytes.Replace` count-1 substitutions
(pending-state marker by succeeded marker, then the temporary id literal
by the final id literal); if the succeeded event does not arrive in time
or fails to decode, the original unmodified response is returned with a
nil error.  The final conjunct pins down the substitution primitive:
first occurrence only, everything else untouched. -/
theorem send_patch_substitution (cfg : ClientCfg) (env : SendEnv) (req : Request)
    (t : Nat) (response : Response) (m : Message)
    (harr : env.primaryArrival = some (t, response)) (ht : t < cfg.catchTimeout)
    (hdp : cfg.DisablePatch = false) (herr : response.Type_ ≠ "error")
    (hreq : req.Type_ = "sendMessage")
    (hm : env.unmarshalMessage response.Data = some m)
    (hct : m.contentType = "messageText" ∨ m.contentType = "messageDice") :
    (∀ t2 modResponse m2, env.successArrival = some (t2, modResponse) → t2 < second →
      env.unmarshalSucceeded modResponse.Data = some m2 →
      send cfg env req = .ok { response with
        Data := goReplaceOnce
          (goReplaceOnce response.Data pendingStateMarker succeededMarker)
          (idLiteral m.Id) (idLiteral m2.messageId) }) ∧
    ((∀ t2 modResponse, env.successArrival = some (t2, modResponse) → second ≤ t2) →
      send cfg env req = .ok response) ∧
    (∀ t2 modResponse, env.successArrival = some (t2, modResponse) → t2 < second →
      env.unmarshalSucceeded modResponse.Data = none →
      send cfg env req = .ok response) ∧
    (∀ (s old new : List Char), old ≠ [] →
      ((containsSeq s old = false → goReplaceOnce s old new = s) ∧
       (containsSeq s old = true → ∃ p q, s = p ++ old ++ q ∧
          goReplaceOnce s old new = p ++ new ++ q ∧
          ∀ p' q', s = p' ++ old ++ q' → p.length ≤ p'.length))) := by
  have hgateb : (!cfg.DisablePatch && (response.Type_ != "error")
      && (req.Type_ == "sendMessage")) = true := by
    simp [hdp, herr, hreq]
  have hctb : ((m.contentType == "messageText")
      || (m.contentType == "messageDice")) = true := by
    rcases hct with h | h <;> simp [h]
  refine ⟨?_, ?_, ?_, ?_⟩
  · intro t2 modResponse m2 hsucc ht2 hm2
    simp only [send, harr]
    rw [if_pos ht, if_pos hgateb]
    simp only [hm]
    rw [if_pos hctb]
    simp only [hsucc]
    rw [if_pos ht2]
    simp only [hm2]
  · intro hlate
    simp only [send, harr]
    rw [if_pos ht, if_pos hgateb]
    simp only [hm]
    rw [if_pos hctb]
    rcases hs : env.successArrival with _ | ⟨t2, modResponse⟩
    · rfl
    · have h2 := hlate t2 modResponse hs
      simp [Nat.not_lt.mpr h2]
  · intro t2 modResponse hsucc ht2 hm2
    simp only [send, harr]
    rw [if_pos ht, if_pos hgateb]
    simp only [hm]
    rw [if_pos hctb]
    simp only [hsucc]
    rw [if_pos ht2]
    simp only [hm2]
  · intro s old new hold
    exact ⟨fun h => goReplaceOnce_not_contains hold h,
      fun h => goReplaceOnce_first_occurrence hold h⟩

/-- Witness for C2 on the worked example: temporary id 100, final id 500;
with the succeeded event the payload is patched, without it the
pending-state payload comes back untouched. -/
theorem send_patch_substitution_witness :
    send wCfg wEnvOk wRequest = .ok wPatched ∧
    send wCfg wEnvNoSucc wRequest = .ok wResponse := by
  constructor
  · have h := (send_patch_substitution wCfg wEnvOk wRequest 5 wResponse
      { Id := 100, contentType := "messageText" } rfl (by decide) rfl (by decide) rfl rfl
      (Or.inl rfl)).1 7
      { Type_ := "updateMessageSendSucceeded", Extra := "", Data := [] }
      { messageId := 500 } rfl (by decide) rfl
    rw [h]
    rfl
  · exact (send_patch_substitution wCfg wEnvNoSucc wRequest 5 wResponse
      { Id := 100, contentType := "messageText" } rfl (by decide) rfl (by decide) rfl rfl
      (Or.inl rfl)).2.1 (fun t2 modResponse h => nomatch h)

/-- C7: when the payload fails to decode, routing stops with nothing
surfaced to any consumer: no secondary correlation delivery, no pending
enqueue, no listener delivery, no GC; the correlation-id lookup performed
before decoding still delivers the raw response to a matching waiter; and
a non-empty correlation id with no matching entry is likewise a silent
no-op. -/
theorem decode_failure_silent (disablePatch : Bool) (decode : List Char → Option TypeObj)
    (catchers : List String) (successKeys : List Int) (pendingTypes : List String)
    (listeners : List Listener) (response : Response) :
    (decode response.Data = none →
      (processResponse disablePatch decode catchers successKeys pendingTypes listeners
          response).successDelivery = none ∧
      (processResponse disablePatch decode catchers successKeys pendingTypes listeners
          response).pendingEnqueues = [] ∧
      (processResponse disablePatch decode catchers successKeys pendingTypes listeners
          response).listenerDeliveries = [] ∧
      (processResponse disablePatch decode catchers successKeys pendingTypes listeners
          response).gcRun = false ∧
      (response.Extra ≠ "" → response.Extra ∈ catchers →
        (processResponse disablePatch decode catchers successKeys pendingTypes listeners
            response).catcherDelivery = some response)) ∧
    (response.Extra ∉ catchers →
      (processResponse disablePatch decode catchers successKeys pendingTypes listeners
          response).catcherDelivery = none) := by
  constructor
  · intro h
    refine ⟨by simp [processResponse, h], by simp [processResponse, h],
      by simp [processResponse, h], by simp [processResponse, h], ?_⟩
    intro hne hmem
    simp [processResponse, h, hne, hmem]
  · intro hmem
    rcases hd : decode response.Data with _ | typ <;>
      simp [processResponse, hd, hmem]

/-- Witness for C7: an undecodable payload with a matching correlation id
is delivered to the waiter and nowhere else; an orphaned correlation id
gets no delivery at all. -/
theorem decode_failure_silent_witness :
    ((processResponse false wDecodeFail ["req-1"] [] [newMessageTag] [GetListener]
        wResponse).listenerDeliveries = [] ∧
      (processResponse false wDecodeFail ["req-1"] [] [newMessageTag] [GetListener]
        wResponse).catcherDelivery = some wResponse) ∧
    (processResponse false wDecodeFail [] [] [] [] wResponse).catcherDelivery = none := by
  refine ⟨⟨?_, ?_⟩, ?_⟩
  · exact ((decode_failure_silent false wDecodeFail ["req-1"] [] [newMessageTag]
      [GetListener] wResponse).1 rfl).2.2.1
  · exact ((decode_failure_silent false wDecodeFail ["req-1"] [] [newMessageTag]
      [GetListener] wResponse).1 rfl).2.2.2.2 (by decide) (by decide)
  · exact (decode_failure_silent false wDecodeFail [] [] [] [] wResponse).2 (by simp)

/-- C4: an AddEventReceiver listener with filter X receives the decoded
object on its Updates channel exactly when the decoded tag equals X and
receives nothing for any other tag; a GetListener listener receives every
decoded update on its RawUpdates channel; and `processResponse` delivers
to each listener in the store according to this per-listener rule. -/
theorem listener_filter_dispatch :
    (∀ (typ : TypeObj) (X : String),
      ((∃ d, deliverToListener typ (AddEventReceiver X) = some (.updates d typ)) ↔
        typ.tag = X) ∧
      (typ.tag ≠ X → deliverToListener typ (AddEventReceiver X) = none)) ∧
    (∀ typ : TypeObj, deliverToListener typ GetListener = some (.raw typ)) ∧
    (∀ (disablePatch : Bool) (decode : List Char → Option TypeObj)
        (catchers : List String) (successKeys : List Int) (pendingTypes : List String)
        (listeners : List Listener) (response : Response) (typ : TypeObj),
      decode response.Data = some typ →
      (processResponse disablePatch decode catchers successKeys pendingTypes listeners
          response).listenerDeliveries = listeners.map (deliverToListener typ)) := by
  refine ⟨?_, ?_, ?_⟩
  · intro typ X
    constructor
    · constructor
      · rintro ⟨d, hd⟩
        by_contra hne
        simp [deliverToListener, AddEventReceiver, Ne.symm hne] at hd
      · intro h
        subst h
        exact ⟨typ.tag == updateMessageSendSucceededTag,
          by simp [deliverToListener, AddEventReceiver]⟩
    · intro hne
      simp [deliverToListener, AddEventReceiver, Ne.symm hne]
  · intro typ
    rfl
  · intro disablePatch decode catchers successKeys pendingTypes listeners response typ h
    simp [processResponse, h]

/-- Witness for C4: a mismatched filter gets nothing; a raw listener gets
the decoded update. -/
theorem listener_filter_dispatch_witness :
    deliverToListener wTypObj (AddEventReceiver optionTag) = none ∧
    (processResponse false wDecode [] [] [] [GetListener] wUpdate).listenerDeliveries
      = [some (.raw wTypObj)] := by
  constructor
  · exact (listener_filter_dispatch.1 wTypObj optionTag).2 (by decide)
  · have h := listener_filter_dispatch.2.2 false wDecode [] [] [] [GetListener]
      wUpdate wTypObj rfl
    rw [h]
    rfl

theorem filter_beq_ne_nil_iff (tag : String) (ts : List String) :
    ts.filter (fun p => tag == p) ≠ [] ↔ tag ∈ ts := by
  induction ts with
  | nil => simp
  | cons a as ih =>
    by_cases h : tag = a
    · simp [List.filter_cons, h]
    · simp [List.filter_cons, h, ih]

/-- C5: an incoming decoded update is enqueued onto the pending buffer
exactly when the listener store is empty and the decoded tag is in the
configured pending-type list; and the drain feeds the buffered responses
back through `processResponse` in their original order, each being
delivered to the raw channel of the first registered (unfiltered)
listener. -/
theorem pending_buffer_contract (disablePatch : Bool)
    (decode : List Char → Option TypeObj) (catchers : List String)
    (successKeys : List Int) (pendingTypes : List String) :
    (∀ (listeners : List Listener) (response : Response) (typ : TypeObj),
      decode response.Data = some typ →
      ((processResponse disablePatch decode catchers successKeys pendingTypes listeners
          response).pendingEnqueues ≠ [] ↔
        listeners = [] ∧ typ.tag ∈ pendingTypes)) ∧
    (∀ (pending : List Response) (i : Nat) (response : Response) (typ : TypeObj),
      pending[i]? = some response →
      decode response.Data = some typ →
      (drainPending disablePatch decode catchers successKeys pendingTypes
          (listenerStoreAdd [] GetListener) pending)[i]?
        = some (processResponse disablePatch decode catchers successKeys pendingTypes
            (listenerStoreAdd [] GetListener) response) ∧
      (processResponse disablePatch decode catchers successKeys pendingTypes
          (listenerStoreAdd [] GetListener) response).listenerDeliveries
        = [some (.raw typ)]) := by
  constructor
  · intro listeners response typ h
    simp only [processResponse, h]
    by_cases hl : listeners.length = 0
    · obtain rfl : listeners = [] := List.length_eq_zero.mp hl
      simp [filter_beq_ne_nil_iff, List.map_eq_nil_iff]
    · have hne : listeners ≠ [] := fun e => hl (by simp [e])
      simp [hl, hne]
  · intro pending i response typ hpend hdec
    constructor
    · rw [drainPending, List.getElem?_map, hpend]
      rfl
    · simp [processResponse, hdec, listenerStoreAdd, deliverToListener, GetListener]

/-- Witness for C5: with zero listeners a configured update is enqueued;
after a raw listener registers, the drain routes it to that listener. -/
theorem pending_buffer_contract_witness :
    (processResponse false wDecode [] [] [newMessageTag] [] wUpdate).pendingEnqueues
      ≠ [] ∧
    (drainPending false wDecode [] [] [newMessageTag] (listenerStoreAdd [] GetListener)
        [wUpdate])[0]?
      = some (processResponse false wDecode [] [] [newMessageTag]
          (listenerStoreAdd [] GetListener) wUpdate) ∧
    (processResponse false wDecode [] [] [newMessageTag]
        (listenerStoreAdd [] GetListener) wUpdate).listenerDeliveries
      = [some (.raw wTypObj)] := by
  refine ⟨?_, ?_⟩
  · exact ((pending_buffer_contract false wDecode [] [] [newMessageTag]).1
      [] wUpdate wTypObj rfl).mpr ⟨rfl, by decide⟩
  · exact (pending_buffer_contract false wDecode [] [] [newMessageTag]).2
      [wUpdate] 0 wUpdate wTypObj rfl rfl

theorem setPendingUpdateType_append (cur upd : List String) :
    SetPendingUpdateType cur upd = cur ++ upd := by
  induction upd generalizing cur with
  | nil => simp [SetPendingUpdateType]
  | cons u us ih =>
    have h := ih (cur ++ [u])
    simp only [SetPendingUpdateType, List.foldl_cons] at h ⊢
    rw [h]
    simp

theorem filter_map_replicate (tag : String) (n : Nat) (r : Response) :
    ((List.replicate n tag).filter (fun p => tag == p)).map
      (fun _ : String => r) = List.replicate n r := by
  induction n with
  | zero => rfl
  | succ k ih => simp [List.replicate_succ, List.filter_cons, ih]

/-- C10: `SetPendingUpdateType` appends to the pending-type slice without
deduplication, and the enqueue loop matches every occurrence without
breaking: a tag configured n times causes a single matching update with
zero listeners to be enqueued n times — for n ≥ 2, more than once. -/
theorem pending_type_duplication :
    (∀ cur upd : List String, SetPendingUpdateType cur upd = cur ++ upd) ∧
    (∀ (disablePatch : Bool) (decode : List Char → Option TypeObj)
        (catchers : List String) (successKeys : List Int) (n : Nat)
        (response : Response) (typ : TypeObj),
      decode response.Data = some typ →
      (processResponse disablePatch decode catchers successKeys
          (SetPendingUpdateType [] (List.replicate n typ.tag)) []
          response).pendingEnqueues
        = List.replicate n response) ∧
    (∀ (n : Nat) (response : Response), 2 ≤ n →
      List.replicate n response ≠ [response]) := by
  refine ⟨setPendingUpdateType_append, ?_, ?_⟩
  · intro disablePatch decode catchers successKeys n response typ h
    rw [setPendingUpdateType_append]
    simp [processResponse, h, filter_map_replicate]
  · intro n response h2 hcontra
    have hlen := congrArg List.length hcontra
    simp [List.length_replicate] at hlen
    omega

/-- Witness for C10: the tag configured twice makes one update enqueue
twice. -/
theorem pending_type_duplication_witness :
    (processResponse false wDecode [] []
        (SetPendingUpdateType [] (List.replicate 2 wTypObj.tag)) []
        wUpdate).pendingEnqueues
      = List.replicate 2 wUpdate ∧
    List.replicate 2 wUpdate ≠ [wUpdate] :=
  ⟨pending_type_duplication.2.1 false wDecode [] [] 2 wUpdate wTypObj rfl,
    pending_type_duplication.2.2 2 wUpdate (by decide)⟩

end Gotd
